import Mathlib

/-!
Verification of the block rendering core of pyEditorJS against its
specification.  The Python module `pyeditorjs/blocks.py` is shallowly
embedded: every block's `html` method becomes a Lean function over a
JSON-like value type, returning `Except PyErr String` so that the Python
exceptions (AttributeError, TypeError, KeyError, EditorJsParseError) are
explicit values.  The sanitizer (`_sanitize` / `_clean`) delegates in the
source to the external `bleach` library, which is not part of this
repository; it is modelled from the specification's description of
sanitizeRich / sanitizePlain.
-/

/-- A JSON-like value, the type of entries of a block's `data` and `tunes`
mappings.  `null` stands for Python's `None`. -/
inductive JVal where
  | null
  | bool (b : Bool)
  | int (n : Int)
  | str (s : String)
  | list (xs : List JVal)
  | obj (kvs : List (String × JVal))

/-- Python exceptions that the embedded rendering code can raise.
`parseError` embeds `EditorJsParseError` together with its message. -/
inductive PyErr where
  | attributeError
  | typeError
  | keyError
  | parseError (msg : String)
deriving DecidableEq

mutual

/-- Python's `repr` on JSON-like values, as used by `str()` on containers. -/
def pyRepr : JVal → String
  | .null => "None"
  | .bool true => "True"
  | .bool false => "False"
  | .int n => toString n
  | .str s => "'" ++ s ++ "'"
  | .list xs => "[" ++ pyReprList xs ++ "]"
  | .obj kvs => "\x7b" ++ pyReprObj kvs ++ "\x7d"

/-- Comma-separated `repr` of the elements of a Python list. -/
def pyReprList : List JVal → String
  | [] => ""
  | [x] => pyRepr x
  | x :: xs => pyRepr x ++ ", " ++ pyReprList xs

/-- Comma-separated `repr` of the entries of a Python dict. -/
def pyReprObj : List (String × JVal) → String
  | [] => ""
  | [(k, v)] => "'" ++ k ++ "': " ++ pyRepr v
  | (k, v) :: kvs => "'" ++ k ++ "': " ++ pyRepr v ++ ", " ++ pyReprObj kvs

end

/-- Python's `str()`, which is what an f-string interpolation applies. -/
def pyStr : JVal → String
  | .str s => s
  | v => pyRepr v

/-- Python truthiness of a JSON-like value. -/
def pyTruthy : JVal → Bool
  | .null => false
  | .bool b => b
  | .int n => !(n == 0)
  | .str s =>
    match s.data with
    | [] => false
    | _ :: _ => true
  | .list xs =>
    match xs with
    | [] => false
    | _ :: _ => true
  | .obj kvs =>
    match kvs with
    | [] => false
    | _ :: _ => true

/-- A Python dict with string keys, as carried by a block's `data`/`tunes`. -/
abbrev PyDict := List (String × JVal)

/-- First-match lookup in a dict. -/
def dlookup : PyDict → String → Option JVal
  | [], _ => none
  | (k', v) :: r, k => if k' = k then some v else dlookup r k

/-- Python's `dict.get(key, default)`. -/
def dget (d : PyDict) (k : String) (dflt : JVal) : JVal :=
  (dlookup d k).getD dflt

/-- Python's `value.get(key, default)`: succeeds only when the receiver is a
dict, every other receiver (in particular `None`) raises AttributeError. -/
def pyGet (v : JVal) (k : String) (dflt : JVal) : Except PyErr JVal :=
  match v with
  | .obj kvs => .ok (dget kvs k dflt)
  | _ => .error .attributeError

/-- Python's subscript `value[key]` with a string key: KeyError when the key
is missing from a dict, TypeError when the receiver is not a dict. -/
def pySub (v : JVal) (k : String) : Except PyErr JVal :=
  match v with
  | .obj kvs =>
    match dlookup kvs k with
    | some x => .ok x
    | none => .error .keyError
  | _ => .error .typeError

/-- Python's `value.endswith(pat)`: only strings have `endswith`; `None` and
every other value raise AttributeError. -/
def pyEndsWith (v : JVal) (pat : String) : Except PyErr Bool :=
  match v with
  | .str s => .ok (pat.data.isSuffixOf s.data)
  | _ => .error .attributeError

/-- Python's `value.startswith(pat)`: only strings have `startswith`. -/
def pyStartsWith (v : JVal) (pat : String) : Except PyErr Bool :=
  match v with
  | .str s => .ok (pat.data.isPrefixOf s.data)
  | _ => .error .attributeError

/-- Whether a value is the given Python string (equality against a str). -/
def jIsStr (v : JVal) (s : String) : Bool :=
  match v with
  | .str t => t = s
  | _ => false

/-- Python's iteration over a value: lists yield their elements, strings
yield their one-character substrings, dicts yield their keys; every other
value raises TypeError. -/
def pyIter : JVal → Except PyErr (List JVal)
  | .list xs => .ok xs
  | .str s => .ok (s.data.map (fun c => .str (String.mk [c])))
  | .obj kvs => .ok (kvs.map (fun kv => .str kv.1))
  | _ => .error .typeError

/-- Number of occurrences of `pat` as a contiguous sublist, counted at every
start position. -/
def subOcc (pat : List Char) : List Char → Nat
  | [] => 0
  | c :: xs => (if pat.isPrefixOf (c :: xs) then 1 else 0) + subOcc pat xs

/-- Number of occurrences of the string `pat` inside `s`. -/
def strOcc (s pat : String) : Nat := subOcc pat.data s.data

/-- Python's substring containment `pat in s`. -/
def strContains (s pat : String) : Bool := !(subOcc pat.data s.data == 0)

/-- Python's `s[:-4]`, dropping the last four characters. -/
def dropLast4 (s : String) : String := ⟨s.data.take (s.data.length - 4)⟩

/-- `s[:-4]` applied to a string value, other values unchanged (the embedded
code slices only after a successful `endswith` check). -/
def jSlice : JVal → JVal
  | .str s => .str (dropLast4 s)
  | v => v

/-- The caption trimming step shared by the quote, embed and media blocks:
if the caption ends with the line-break placeholder, the trailing
placeholder is removed. -/
def trimBr (c : String) : String :=
  if "<br>".data.isSuffixOf c.data then dropLast4 c else c

/-! ### The sanitizer

`_sanitize` and `_clean` in the source delegate to `bleach.clean`, an
external dependency whose code is not part of this repository.  The
functions below are modelled from the spec: sanitizeRich retains a fixed
allow-list of inline tags and of attributes and strips every other tag
while preserving text content; sanitizePlain first replaces the `<br>`
line-break placeholder by a newline and then strips all markup. -/

/-- A lexical token of the modelled HTML micro-grammar: a text character or
the content of one `<`...`>` tag. -/
inductive Tok where
  | text (c : Char)
  | tag (content : List Char)
deriving DecidableEq

/-- Lexer: scan characters, collecting tag content between `<` and `>`.
Returns the token list and, when the input ends inside an unterminated tag,
the accumulated (reversed) tag content. -/
def lexAux (l : List Char) : Option (List Char) → List Tok × Option (List Char) :=
  match l with
  | [] => fun acc => ([], acc)
  | c :: r => fun acc =>
    match acc with
    | none =>
      if c = '<' then lexAux r (some [])
      else
        let p := lexAux r none
        (.text c :: p.1, p.2)
    | some a =>
      if c = '>' then
        let p := lexAux r none
        (.tag a.reverse :: p.1, p.2)
      else lexAux r (some (c :: a))

/-- Replace every `<` by the escape `&lt;` (used for an unterminated tag). -/
def escLt : List Char → List Char
  | [] => []
  | c :: r => (if c = '<' then ['&', 'l', 't', ';'] else [c]) ++ escLt r

/-- Split tag content into its closing-slash marker and the remainder. -/
def tagBody (l : List Char) : Bool × List Char :=
  match l with
  | c :: r => if c = '/' then (true, r) else (false, c :: r)
  | [] => (false, [])

/-- Split a character list on a separator character. -/
def splitCh (sep : Char) : List Char → List (List Char)
  | [] => [[]]
  | c :: r =>
    if c = sep then [] :: splitCh sep r
    else
      match splitCh sep r with
      | [] => [[c]]
      | h :: t => (c :: h) :: t

/-- The attribute words kept by the filter: those whose key (the part
before an equals sign) is in the attribute allow-list. -/
def keepAttrs (A : List (List Char)) (ws : List (List Char)) : List (List Char) :=
  ws.filter (fun w => w.takeWhile (fun c => c ≠ '=') ∈ A)

/-- The inside of a serialized tag: optional closing slash, name, kept
attribute words each preceded by one space. -/
def tagInner (cl : Bool) (name : List Char) (kept : List (List Char)) : List Char :=
  (if cl then ['/'] else []) ++ name ++ kept.flatMap (fun w => ' ' :: w)

/-- A serialized kept tag. -/
def mkTag (cl : Bool) (name : List Char) (kept : List (List Char)) : List Char :=
  '<' :: tagInner cl name kept ++ ['>']

/-- Filter one tag given its closing marker and body. -/
def renderTagAux (T A : List (List Char)) (cl : Bool) (body : List Char) : List Char :=
  match splitCh ' ' body with
  | [] => []
  | name :: ws =>
    if name ∈ T then mkTag cl name (keepAttrs A ws) else []

/-- Modelled from the spec: filter one tag.  The tag's name is checked
against the tag allow-list; a kept tag retains exactly its attribute words
whose key is in the attribute allow-list, a disallowed tag is removed
entirely (its inner text is separate text tokens and is preserved). -/
def renderTag (T A : List (List Char)) (content : List Char) : List Char :=
  renderTagAux T A (tagBody content).1 (tagBody content).2

/-- Serialize the filtered token stream. -/
def sanToks (T A : List (List Char)) : List Tok → List Char
  | [] => []
  | .text c :: r => c :: sanToks T A r
  | .tag content :: r => renderTag T A content ++ sanToks T A r

/-- Modelled from the spec: the core sanitizer over an allow-list of tags
and one of attribute names.  Never fails; an unterminated trailing tag is
escaped rather than dropped. -/
def sanCore (T A : List (List Char)) (l : List Char) : List Char :=
  let p := lexAux l none
  sanToks T A p.1 ++
    (match p.2 with
     | none => []
     | some a => escLt ('<' :: a.reverse))

/-- The tag allow-list of `_sanitize` in the source. -/
def richTags : List (List Char) :=
  ["b", "i", "u", "a", "mark", "code", "s", "del", "br", "span"].map String.data

/-- The attribute allow-list of `_sanitize` in the source. -/
def richAttrs : List (List Char) :=
  ["class", "data-placeholder", "href", "data-title", "data-text"].map String.data

/-- Modelled from the spec: `_sanitize` (sanitizeRich), the rich text
sanitizer with the source's tag and attribute allow-lists. -/
def sanitizeRich (s : String) : String := ⟨sanCore richTags richAttrs s.data⟩

/-- Python's `html.replace(placeholder, newline)` for the fixed placeholder
`<br>`: left-to-right, non-overlapping. -/
def replBr : List Char → List Char
  | '<' :: 'b' :: 'r' :: '>' :: rest => '\n' :: replBr rest
  | c :: rest => c :: replBr rest
  | [] => []

/-- Modelled from the spec: `_clean` (sanitizePlain) replaces the `<br>`
placeholder by a newline and then strips all markup (empty allow-lists). -/
def sanitizePlain (s : String) : String := ⟨sanCore [] [] (replBr s.data)⟩

/-- Apply `_sanitize(v) if sanitize else v` to a field value: the sanitizer
is only defined on strings, every other argument raises TypeError inside
bleach. -/
def sanVal (sanitize : Bool) (v : JVal) : Except PyErr JVal :=
  if sanitize then
    match v with
    | .str s => .ok (.str (sanitizeRich s))
    | _ => .error .typeError
  else .ok v

/-- Apply `_clean` to a value (same TypeError behaviour on non-strings). -/
def cleanVal (v : JVal) : Except PyErr String :=
  match v with
  | .str s => .ok (sanitizePlain s)
  | _ => .error .typeError

/-! ### The block variants

Each variant's `html` method, translated from `pyeditorjs/blocks.py`.  The
functions take the block's `data` dict (and, for the paragraph, its
`tunes`) and the `sanitize` flag. -/

namespace CodeBlock

/-- CodeBlock.html: the `sanitize` flag is ignored, the code text is
emitted verbatim inside the preformatted block. -/
def html (data : PyDict) (sanitize : Bool) : Except PyErr String :=
  .ok ("<div class=\"cdx-block ce-code\"><pre>" ++ pyStr (dget data "code" .null) ++
    "</pre></div>")

end CodeBlock

/-- HeaderBlock.level's validity test: Python's
`isinstance(x, int) and x in range(1, 7)`.  Booleans are instances of
`int` in Python and compare equal to 0/1, so `True` passes the test. -/
def pyLevelOk : JVal → Bool
  | .int n => decide (1 ≤ n) && decide (n ≤ 6)
  | .bool b => b
  | _ => false

namespace HeaderBlock

/-- HeaderBlock.level: default 1 when missing; raises EditorJsParseError
when the value fails the isinstance/range test. -/
def level (data : PyDict) : Except PyErr JVal :=
  let lv := dget data "level" (.int 1)
  if pyLevelOk lv then .ok lv
  else .error (.parseError ("`" ++ pyStr lv ++ "` is not a valid header level."))

/-- HeaderBlock.html. -/
def html (data : PyDict) (sanitize : Bool) : Except PyErr String := do
  let lv ← level data
  let txt ← sanVal sanitize (dget data "text" .null)
  .ok ("<h" ++ pyStr lv ++ " class=\"cdx-block ce-header\">" ++ pyStr txt ++
    "</h" ++ pyStr lv ++ ">")

end HeaderBlock

namespace ParagraphBlock

/-- ParagraphBlock.html: the alignment is read by subscripting the
AlignmentTune tune, whose default (used only when the tune is entirely
absent) is the dict mapping alignment to left. -/
def html (data tunes : PyDict) (sanitize : Bool) : Except PyErr String := do
  let al ← pySub (dget tunes "AlignmentTune" (.obj [("alignment", .str "left")]))
    "alignment"
  let txt ← sanVal sanitize (dget data "text" .null)
  .ok ("<p style=\"text-align: " ++ pyStr al ++ "\" class=\"cdx-block ce-paragraph\">" ++
    pyStr txt ++ "</p>")

end ParagraphBlock

namespace WarningBlock

/-- WarningBlock.html: title and message sub-elements are individually
omitted when falsy. -/
def html (data : PyDict) (sanitize : Bool) : Except PyErr String := do
  let tt ← sanVal sanitize (dget data "title" .null)
  let ms ← sanVal sanitize (dget data "message" .null)
  .ok ("<div class=\"cdx-block ce-warning\">" ++
    "  <blockquote class=\"ce-warning__blockquote\">" ++
    (if pyTruthy tt then "    <b class=\"ce-warning__title\">" ++ pyStr tt ++ "</b>"
     else "") ++
    (if pyTruthy ms then "    <div class=\"ce-warning__message\">" ++ pyStr ms ++ "</div>"
     else "") ++
    "  </blockquote>" ++ "</div>")

end WarningBlock

namespace QuoteBlock

/-- QuoteBlock.html: the caption is (optionally) sanitized, then a single
trailing line-break placeholder is stripped; the citation element is
emitted only when the trimmed caption is truthy, and its content is
sanitized a second time under the flag.  The with-caption CSS class
depends on the raw caption. -/
def html (data : PyDict) (sanitize : Bool) : Except PyErr String := do
  let cap0 ← sanVal sanitize (dget data "caption" .null)
  let ends ← pyEndsWith cap0 "<br>"
  let cap := if ends then jSlice cap0 else cap0
  let cite ←
    if pyTruthy cap then do
      let c2 ← sanVal sanitize cap
      pure ("<cite class=\"ce-quote__caption\">" ++ pyStr c2 ++ "</cite>")
    else pure ""
  let txt ← sanVal sanitize (dget data "text" .null)
  .ok ("<div class=\"cdx-block ce-quote ce-quote-with-align-" ++
    pyStr (dget data "alignment" .null) ++
    (if pyTruthy (dget data "caption" .null) then " ce-quote-with-caption" else "") ++
    "\">" ++ "      <blockquote class=\"ce-quote__blockquote\">" ++
    pyStr txt ++ cite ++ "      </blockquote>" ++ "</div>")

end QuoteBlock

namespace ListBlock

/-- The per-item rendering of ListBlock.html's list comprehension. -/
def renderItems (sanitize : Bool) : List JVal → Except PyErr (List String)
  | [] => .ok []
  | it :: r => do
    let v ← sanVal sanitize it
    let rest ← renderItems sanitize r
    .ok (("<li>" ++ pyStr v ++ "</li>") :: rest)

/-- ListBlock.html: raises EditorJsParseError unless the style is the
string ordered or unordered; otherwise one li element per item. -/
def html (data : PyDict) (sanitize : Bool) : Except PyErr String := do
  let st := dget data "style" .null
  if !(jIsStr st "unordered" || jIsStr st "ordered") then
    .error (.parseError ("`" ++ pyStr st ++ "` is not a valid list style."))
  else do
    let items ← pyIter (dget data "items" (.list []))
    let rendered ← renderItems sanitize items
    let ty := if jIsStr st "unordered" then "ul" else "ol"
    .ok ("<" ++ ty ++ " class=\"cdx-block cdx-list cdx-list--" ++ pyStr st ++ "\">" ++
      String.join rendered ++ "</" ++ ty ++ ">")

end ListBlock

namespace DelimiterBlock

/-- DelimiterBlock.html: a fixed fragment. -/
def html (data : PyDict) (sanitize : Bool) : Except PyErr String :=
  .ok "<div class=\"cdx-block ce-delimiter\"><hr/></div>"

end DelimiterBlock

namespace RawBlock

/-- RawBlock.html: the supplied markup is passed through untouched. -/
def html (data : PyDict) (sanitize : Bool) : Except PyErr String :=
  .ok ("<div class=\"cdx-block ce-raw\">" ++ pyStr (dget data "html" (.str "")) ++
    "</div>")

end RawBlock

namespace EmbedBlock

/-- EmbedBlock.html: trims a trailing line-break placeholder from the
caption, then branches on the service: youtube yields an iframe from the
embed field, twitter a blockquote/script pair from the source field, any
other service only the caption figure. -/
def html (data : PyDict) (sanitize : Bool) : Except PyErr String := do
  let cap0 ← sanVal sanitize (dget data "caption" .null)
  let ends ← pyEndsWith cap0 "<br>"
  let cap := if ends then jSlice cap0 else cap0
  let svc := dget data "service" (.str "")
  let mid :=
    if jIsStr svc "youtube" then
      "<iframe src=\"" ++ pyStr (dget data "embed" (.str "")) ++
      "\" width=\"100%\" style=\"aspect-ratio: 16/9\" frameborder=\"0\" allow=\"accelerometer; autoplay; clipboard-write; encrypted-media; gyroscope; picture-in-picture; web-share\" allowfullscreen></iframe>"
    else if jIsStr svc "twitter" then
      "<blockquote class=\"twitter-tweet\"><blockquote class=\"twitter-tweet\"><a href=\"" ++
      pyStr (dget data "source" (.str "")) ++
      "\"></a></blockquote><script async src=\"https://platform.twitter.com/widgets.js\" charset=\"utf-8\"></script>"
    else ""
  .ok ("<div class=\"cdx-block embed-tool embed-tool-" ++ pyStr svc ++
    "\"><figure><div class=\"embed-tool__embed\">" ++ mid ++
    "</div><figcaption class=\"embed-tool__caption\">" ++ pyStr cap ++
    "</figcaption></figure></div>")

end EmbedBlock

namespace MediaBlock

/-- MediaBlock.html: reads `file.urls` and `file.mimetype`, trims the
caption's trailing line-break placeholder, appends one CSS modifier class
per boolean flag, and branches on the mimetype prefix; the responsive
srcset is omitted for svg image mimetypes.  The caption is passed through
`_clean` for the alt and data-placeholder attributes. -/
def html (data : PyDict) (sanitize : Bool) : Except PyErr String := do
  let url ← pyGet (dget data "file" (.obj [])) "urls" .null
  let cap0 ← sanVal sanitize (dget data "caption" .null)
  let ends ← pyEndsWith cap0 "<br>"
  let cap := if ends then jSlice cap0 else cap0
  let classes := "cdx-block media-tool media-tool--filled" ++
    (if pyTruthy (dget data "stretched" (.bool false)) then " media-tool--stretched"
     else "") ++
    (if pyTruthy (dget data "withBorder" (.bool false)) then " media-tool--withBorder"
     else "") ++
    (if pyTruthy (dget data "withBackground" (.bool false)) then
      " media-tool--withBackground"
     else "")
  let mt ← pyGet (dget data "file" (.obj [])) "mimetype" .null
  let isImage ← pyStartsWith mt "image"
  let main ←
    if isImage then do
      let srcset ←
        if strContains (pyStr mt) "image/svg" then pure none
        else do
          let nrm ← pyGet url "normal" .null
          let med ← pyGet url "medium" .null
          let sml ← pyGet url "small" .null
          pure (some (pyStr nrm ++ " 1080w, " ++ pyStr med ++ " 720w, " ++
            pyStr sml ++ " 480w"))
      let full ← pyGet url "full" (.str "")
      let cln ← cleanVal cap
      pure ("     <img class=\"media-tool__media-picture\" src=\"" ++ pyStr full ++
        "\" " ++
        (match srcset with
         | some s => if pyTruthy (.str s) then "srcset=\"" ++ s ++ "\" " else ""
         | none => "") ++
        "alt=\"" ++ cln ++ "\" />")
    else do
      let isVideo ← pyStartsWith mt "video"
      if isVideo then do
        let full ← pyGet url "full" (.str "")
        pure ("     <video class=\"media-tool__media-picture\" src=\"" ++ pyStr full ++
          "\" controls=\"\"></video>")
      else pure ""
  let cln2 ← cleanVal cap
  .ok ("<div class=\"" ++ classes ++ "\"><figure>" ++
    "  <div class=\"media-tool__media\">" ++ main ++ "  </div>" ++
    "<figcaption class=\"media-tool__caption\" data-placeholder=\"" ++ cln2 ++
    "\">" ++ pyStr cap ++ "</figcaption>" ++ "</figure>" ++ "</div>")

end MediaBlock

namespace TelegramPost

/-- TelegramPost.html: emits only the widget script tag addressed to
channelName/messageId; neither the caption nor the sanitize flag is used. -/
def html (data : PyDict) (sanitize : Bool) : Except PyErr String :=
  .ok ("<div class=\"cdx-block telegram-post\"><script async src=\"https://telegram.org/js/telegram-widget.js?22\" data-telegram-post=\"" ++
    pyStr (dget data "channelName" (.str "")) ++ "/" ++
    pyStr (dget data "messageId" (.str "")) ++
    "\" data-width=\"100%\"></script></div>")

end TelegramPost

/-! ### Sanitizer lemmas

The development below establishes that the modelled rich sanitizer is
idempotent: its output consists of safe text characters (never an
unescaped tag opener), serializations of kept tags that re-parse and
re-filter to themselves, and an escaped tail. -/

/-- A token produced by the lexer is well formed: text characters are not
tag openers, and tag contents contain no tag closer. -/
def GoodTok : Tok → Prop
  | .text c => c ≠ '<'
  | .tag content => '>' ∉ content

theorem lexAux_nil (acc : Option (List Char)) : lexAux [] acc = ([], acc) := rfl

theorem lexAux_cons_none (c : Char) (r : List Char) :
    lexAux (c :: r) none =
      if c = '<' then lexAux r (some [])
      else (.text c :: (lexAux r none).1, (lexAux r none).2) := rfl

theorem lexAux_cons_some (c : Char) (r a : List Char) :
    lexAux (c :: r) (some a) =
      if c = '>' then (.tag a.reverse :: (lexAux r none).1, (lexAux r none).2)
      else lexAux r (some (c :: a)) := rfl

theorem lexAux_append (l₁ l₂ : List Char) (acc : Option (List Char)) :
    lexAux (l₁ ++ l₂) acc =
      ((lexAux l₁ acc).1 ++ (lexAux l₂ (lexAux l₁ acc).2).1,
        (lexAux l₂ (lexAux l₁ acc).2).2) := by
  induction l₁ generalizing acc with
  | nil => simp [lexAux_nil]
  | cons c r ih =>
    cases acc with
    | none =>
      by_cases hc : c = '<'
      · simp [lexAux_cons_none, hc, ih]
      · simp [lexAux_cons_none, hc, ih]
    | some a =>
      by_cases hc : c = '>'
      · simp [lexAux_cons_some, hc, ih]
      · simp [lexAux_cons_some, hc, ih]

theorem lexAux_text (t : List Char) (h : '<' ∉ t) :
    lexAux t none = (t.map .text, none) := by
  induction t with
  | nil => rfl
  | cons c r ih =>
    have hc : c ≠ '<' := fun hc => h (hc ▸ List.mem_cons_self c r)
    have hr : '<' ∉ r := fun hr => h (List.mem_cons_of_mem c hr)
    simp [lexAux_cons_none, hc, ih hr]

theorem lexAux_inTag (inner : List Char) (a : List Char) (h : '>' ∉ inner) :
    lexAux inner (some a) = ([], some (inner.reverse ++ a)) := by
  induction inner generalizing a with
  | nil => simp [lexAux_nil]
  | cons c r ih =>
    have hc : c ≠ '>' := fun hc => h (hc ▸ List.mem_cons_self c r)
    have hr : '>' ∉ r := fun hr => h (List.mem_cons_of_mem c hr)
    simp [lexAux_cons_some, hc, ih (c :: a) hr]

theorem escLt_no_lt (l : List Char) : '<' ∉ escLt l := by
  induction l with
  | nil => simp [escLt]
  | cons c r ih =>
    simp only [escLt]
    intro h
    rw [List.mem_append] at h
    rcases h with h | h
    · split at h
      · simp at h
      · rename_i hc
        simp at h
        exact hc h.symm
    · exact ih h

theorem lexAux_good (l : List Char) :
    ∀ acc, (∀ a, acc = some a → '>' ∉ a) →
      ∀ t ∈ (lexAux l acc).1, GoodTok t := by
  induction l with
  | nil => intro acc _ t ht; simp [lexAux_nil] at ht
  | cons c r ih =>
    intro acc hacc t ht
    cases acc with
    | none =>
      by_cases hc : c = '<'
      · rw [lexAux_cons_none, if_pos hc] at ht
        exact ih (some []) (by intro a ha; cases ha; simp) t ht
      · rw [lexAux_cons_none, if_neg hc] at ht
        rcases List.mem_cons.mp ht with h | h
        · subst h; exact hc
        · exact ih none (by intro a ha; cases ha) t h
    | some a =>
      by_cases hc : c = '>'
      · rw [lexAux_cons_some, if_pos hc] at ht
        rcases List.mem_cons.mp ht with h | h
        · subst h
          intro hmem
          exact hacc a rfl (List.mem_reverse.mp hmem)
        · exact ih none (by intro a ha; cases ha) t h
      · rw [lexAux_cons_some, if_neg hc] at ht
        refine ih (some (c :: a)) ?_ t ht
        intro b hb
        cases hb
        intro hmem
        rcases List.mem_cons.mp hmem with h | h
        · exact hc h.symm
        · exact hacc a rfl h

theorem splitCh_ne_nil (sep : Char) (l : List Char) : splitCh sep l ≠ [] := by
  induction l with
  | nil => simp [splitCh]
  | cons c r ih =>
    simp only [splitCh]
    split
    · simp
    · cases h : splitCh sep r with
      | nil => exact absurd h ih
      | cons a b => simp [h]

theorem mem_splitCh_not_sep (sep : Char) (l : List Char) :
    ∀ w ∈ splitCh sep l, sep ∉ w := by
  induction l with
  | nil =>
    intro w hw
    simp [splitCh] at hw
    simp [hw]
  | cons c r ih =>
    intro w hw
    simp only [splitCh] at hw
    split at hw
    · rcases List.mem_cons.mp hw with h | h
      · simp [h]
      · exact ih w h
    · rename_i hc
      rcases hsp : splitCh sep r with _ | ⟨a, b⟩
      · exact absurd hsp (splitCh_ne_nil sep r)
      · rw [hsp] at hw
        rcases List.mem_cons.mp hw with h | h
        · subst h
          intro hmem
          rcases List.mem_cons.mp hmem with h | h
          · exact hc h.symm
          · exact ih a (by rw [hsp]; exact List.mem_cons_self a b) h
        · exact ih w (by rw [hsp]; exact List.mem_cons_of_mem a h)

theorem mem_splitCh_mem (sep : Char) (l : List Char) :
    ∀ w ∈ splitCh sep l, ∀ x ∈ w, x ∈ l := by
  induction l with
  | nil =>
    intro w hw
    simp [splitCh] at hw
    simp [hw]
  | cons c r ih =>
    intro w hw x hx
    simp only [splitCh] at hw
    split at hw
    · rcases List.mem_cons.mp hw with h | h
      · subst h; simp at hx
      · exact List.mem_cons_of_mem c (ih w h x hx)
    · rcases hsp : splitCh sep r with _ | ⟨a, b⟩
      · exact absurd hsp (splitCh_ne_nil sep r)
      · rw [hsp] at hw
        rcases List.mem_cons.mp hw with h | h
        · subst h
          rcases List.mem_cons.mp hx with h | h
          · exact h ▸ List.mem_cons_self c r
          · exact List.mem_cons_of_mem c
              (ih a (by rw [hsp]; exact List.mem_cons_self a b) x h)
        · exact List.mem_cons_of_mem c
            (ih w (by rw [hsp]; exact List.mem_cons_of_mem a h) x hx)

theorem splitCh_no_sep (sep : Char) (w : List Char) (h : sep ∉ w) :
    splitCh sep w = [w] := by
  induction w with
  | nil => rfl
  | cons c r ih =>
    have hc : c ≠ sep := fun hc => h (hc ▸ List.mem_cons_self c r)
    have hr : sep ∉ r := fun hr => h (List.mem_cons_of_mem c hr)
    simp only [splitCh, if_neg hc, ih hr]

theorem splitCh_append_sep (sep : Char) (w rest : List Char) (h : sep ∉ w) :
    splitCh sep (w ++ sep :: rest) = w :: splitCh sep rest := by
  induction w with
  | nil => simp [splitCh]
  | cons c r ih =>
    have hc : c ≠ sep := fun hc => h (hc ▸ List.mem_cons_self c r)
    have hr : sep ∉ r := fun hr => h (List.mem_cons_of_mem c hr)
    have := ih hr
    simp only [List.cons_append, splitCh, if_neg hc, List.append_eq, this]

theorem splitCh_flat (sep : Char) (ws : List (List Char)) :
    ∀ name, sep ∉ name → (∀ w ∈ ws, sep ∉ w) →
      splitCh sep (name ++ ws.flatMap (fun w => sep :: w)) = name :: ws := by
  induction ws with
  | nil =>
    intro name hn _
    simp [splitCh_no_sep sep name hn]
  | cons w ws' ih =>
    intro name hn hws
    have h1 : name ++ (w :: ws').flatMap (fun w => sep :: w) =
        name ++ sep :: (w ++ ws'.flatMap (fun w => sep :: w)) := by
      simp
    rw [h1, splitCh_append_sep sep name _ hn,
      ih w (hws w (List.mem_cons_self w ws'))
        (fun u hu => hws u (List.mem_cons_of_mem w hu))]

theorem tagBody_sub (l : List Char) : ∀ x ∈ (tagBody l).2, x ∈ l := by
  rcases l with _ | ⟨c, r⟩
  · simp [tagBody]
  · by_cases hc : c = '/'
    · subst hc
      simp only [tagBody, if_pos rfl]
      exact fun x hx => List.mem_cons_of_mem _ hx
    · simp only [tagBody, if_neg hc]
      exact fun x hx => hx

theorem tagBody_slash (r : List Char) : tagBody ('/' :: r) = (true, r) := rfl

theorem tagBody_not_slash (c : Char) (r : List Char) (h : c ≠ '/') :
    tagBody (c :: r) = (false, c :: r) := by
  simp [tagBody, h]

theorem keepAttrs_fixed (A : List (List Char)) (kept : List (List Char))
    (hkeep : ∀ w ∈ kept, w.takeWhile (fun c => c ≠ '=') ∈ A) :
    keepAttrs A kept = kept := by
  rw [keepAttrs, List.filter_eq_self]
  intro w hw
  exact decide_eq_true (hkeep w hw)

theorem renderTag_serialized (T A : List (List Char)) (cl : Bool)
    (name : List Char) (kept : List (List Char))
    (hn : name ∈ T) (hne : name ≠ []) (hnsp : ' ' ∉ name)
    (hnhd : name.head? ≠ some '/')
    (hkeep : ∀ w ∈ kept, w.takeWhile (fun c => c ≠ '=') ∈ A)
    (hksp : ∀ w ∈ kept, ' ' ∉ w) :
    renderTag T A (tagInner cl name kept) = mkTag cl name kept := by
  have hsplit : splitCh ' ' (name ++ kept.flatMap (fun w => ' ' :: w)) = name :: kept :=
    splitCh_flat ' ' kept name hnsp hksp
  have hfilter : keepAttrs A kept = kept := keepAttrs_fixed A kept hkeep
  cases cl with
  | true =>
    have harg : tagInner true name kept =
        '/' :: (name ++ kept.flatMap (fun w => ' ' :: w)) := by
      simp [tagInner]
    rw [renderTag, harg, tagBody_slash]
    simp only [renderTagAux, hsplit, if_pos hn, hfilter]
  | false =>
    obtain ⟨nh, nt, rfl⟩ : ∃ nh nt, name = nh :: nt := by
      cases name with
      | nil => exact absurd rfl hne
      | cons a b => exact ⟨a, b, rfl⟩
    have hnh : nh ≠ '/' := by
      intro h
      apply hnhd
      rw [h]
      rfl
    have harg : tagInner false (nh :: nt) kept =
        nh :: (nt ++ kept.flatMap (fun w => ' ' :: w)) := by
      simp [tagInner]
    rw [renderTag, harg, tagBody_not_slash nh _ hnh]
    have hsp2 : splitCh ' ' (nh :: (nt ++ kept.flatMap (fun w => ' ' :: w))) =
        (nh :: nt) :: kept := by
      simpa using hsplit
    simp only [renderTagAux, hsp2, if_pos hn, hfilter]

theorem renderTag_stable (T A : List (List Char))
    (hT : ∀ n ∈ T, n ≠ [] ∧ ' ' ∉ n ∧ n.head? ≠ some '/')
    (hA : [] ∉ A) (content : List Char) (hc : '>' ∉ content) :
    renderTag T A content = [] ∨
    ∃ inner, renderTag T A content = '<' :: inner ++ ['>'] ∧ '>' ∉ inner ∧
      renderTag T A inner = '<' :: inner ++ ['>'] := by
  rcases hsp : splitCh ' ' (tagBody content).2 with _ | ⟨name, ws⟩
  · exact absurd hsp (splitCh_ne_nil _ _)
  by_cases hn : name ∈ T
  case neg =>
    left
    rw [renderTag]
    simp only [renderTagAux, hsp, if_neg hn]
  case pos =>
    right
    obtain ⟨hne, hnsp, hnhd⟩ := hT name hn
    have hbody : ∀ x ∈ (tagBody content).2, x ∈ content := tagBody_sub content
    have hname_mem : name ∈ splitCh ' ' (tagBody content).2 := by
      rw [hsp]; exact List.mem_cons_self _ _
    have hngt : '>' ∉ name := fun hx =>
      hc (hbody _ (mem_splitCh_mem _ _ name hname_mem _ hx))
    have hkept_sub : ∀ w ∈ keepAttrs A ws, w ∈ ws := by
      intro w hw
      rw [keepAttrs] at hw
      exact (List.mem_filter.mp hw).1
    have hkmem : ∀ w ∈ keepAttrs A ws, w ∈ splitCh ' ' (tagBody content).2 := by
      intro w hw
      rw [hsp]
      exact List.mem_cons_of_mem _ (hkept_sub w hw)
    have hksp : ∀ w ∈ keepAttrs A ws, ' ' ∉ w := fun w hw =>
      mem_splitCh_not_sep _ _ w (hkmem w hw)
    have hkgt : ∀ w ∈ keepAttrs A ws, '>' ∉ w := fun w hw hx =>
      hc (hbody _ (mem_splitCh_mem _ _ w (hkmem w hw) _ hx))
    have hkeep : ∀ w ∈ keepAttrs A ws, w.takeWhile (fun c => c ≠ '=') ∈ A := by
      intro w hw
      rw [keepAttrs] at hw
      exact of_decide_eq_true (List.mem_filter.mp hw).2
    refine ⟨tagInner (tagBody content).1 name (keepAttrs A ws), ?_, ?_, ?_⟩
    · rw [renderTag]
      simp only [renderTagAux, hsp, if_pos hn, mkTag]
    · intro hx
      rw [tagInner] at hx
      rcases List.mem_append.mp hx with hx | hx
      · rcases List.mem_append.mp hx with hx | hx
        · cases h1 : (tagBody content).1 <;> rw [h1] at hx <;> simp at hx
        · exact hngt hx
      · obtain ⟨w, hw, hxw⟩ := List.mem_flatMap.mp hx
        rcases List.mem_cons.mp hxw with h | h
        · simp at h
        · exact hkgt w hw h
    · exact renderTag_serialized T A _ name (keepAttrs A ws) hn hne hnsp hnhd
        hkeep hksp

theorem sanCore_cons (T A : List (List Char)) (c : Char) (l : List Char)
    (hc : c ≠ '<') : sanCore T A (c :: l) = c :: sanCore T A l := by
  simp only [sanCore, lexAux_cons_none, if_neg hc, sanToks, List.cons_append]

theorem sanCore_tag (T A : List (List Char)) (inner l : List Char)
    (hi : '>' ∉ inner) :
    sanCore T A ('<' :: (inner ++ '>' :: l)) = renderTag T A inner ++ sanCore T A l := by
  have h1 : lexAux ('<' :: (inner ++ '>' :: l)) none =
      (.tag inner :: (lexAux l none).1, (lexAux l none).2) := by
    rw [lexAux_cons_none, if_pos rfl, lexAux_append inner ('>' :: l) (some []),
      lexAux_inTag inner [] hi]
    simp [lexAux_cons_some]
  simp only [sanCore, h1, sanToks, List.append_assoc]

theorem sanCore_text (T A : List (List Char)) (l : List Char) (h : '<' ∉ l) :
    sanCore T A l = l := by
  induction l with
  | nil => rfl
  | cons c r ih =>
    have hc : c ≠ '<' := fun hc => h (hc ▸ List.mem_cons_self c r)
    have hr : '<' ∉ r := fun hr => h (List.mem_cons_of_mem c hr)
    rw [sanCore_cons T A c r hc, ih hr]

theorem sanCore_fixed_toks (T A : List (List Char))
    (hT : ∀ n ∈ T, n ≠ [] ∧ ' ' ∉ n ∧ n.head? ≠ some '/')
    (hA : [] ∉ A) :
    ∀ ts : List Tok, (∀ t ∈ ts, GoodTok t) → ∀ e : List Char, '<' ∉ e →
      sanCore T A (sanToks T A ts ++ e) = sanToks T A ts ++ e := by
  intro ts
  induction ts with
  | nil =>
    intro _ e he
    simpa [sanToks] using sanCore_text T A e he
  | cons t r ih =>
    intro hgood e he
    have hgr : ∀ u ∈ r, GoodTok u := fun u hu => hgood u (List.mem_cons_of_mem t hu)
    cases t with
    | text c =>
      have hc : c ≠ '<' := hgood _ (List.mem_cons_self _ _)
      rw [sanToks, List.cons_append, sanCore_cons T A c _ hc, ih hgr e he]
    | tag content =>
      have hcg : '>' ∉ content := hgood _ (List.mem_cons_self _ _)
      rcases renderTag_stable T A hT hA content hcg with h0 | ⟨inner, hout, hgt, hstab⟩
      · rw [sanToks, h0, List.nil_append]
        exact ih hgr e he
      · rw [sanToks, hout]
        have hassoc : ('<' :: inner ++ ['>'] ++ sanToks T A r) ++ e =
            '<' :: (inner ++ '>' :: (sanToks T A r ++ e)) := by
          simp
        rw [hassoc, sanCore_tag T A inner _ hgt, hstab, ih hgr e he]
        simp

theorem sanCore_idem (T A : List (List Char))
    (hT : ∀ n ∈ T, n ≠ [] ∧ ' ' ∉ n ∧ n.head? ≠ some '/')
    (hA : [] ∉ A) (l : List Char) :
    sanCore T A (sanCore T A l) = sanCore T A l := by
  have hgood : ∀ t ∈ (lexAux l none).1, GoodTok t :=
    lexAux_good l none (by intro a h; cases h)
  rcases hlf : (lexAux l none).2 with _ | a
  · have h2 : sanCore T A l = sanToks T A (lexAux l none).1 ++ [] := by
      simp only [sanCore, hlf]
    rw [h2]
    exact sanCore_fixed_toks T A hT hA _ hgood [] (by simp)
  · have h2 : sanCore T A l = sanToks T A (lexAux l none).1 ++ escLt ('<' :: a.reverse) := by
      simp only [sanCore, hlf]
    rw [h2]
    exact sanCore_fixed_toks T A hT hA _ hgood _ (escLt_no_lt _)


/-! ### Support lemmas for the claims -/

theorem trimBr_eq_empty (c : String) (h : trimBr c = "") : c = "" ∨ c = "<br>" := by
  obtain ⟨l⟩ := c
  rw [trimBr] at h
  by_cases hs : "<br>".data.isSuffixOf (String.mk l).data
  · right
    have hsuf : ['<', 'b', 'r', '>'] <:+ l := List.isSuffixOf_iff_suffix.mp hs
    obtain ⟨t, ht⟩ := hsuf
    rw [if_pos hs] at h
    have hlen : (String.mk l).data.length - 4 = t.length := by
      show l.length - 4 = t.length
      rw [← ht]
      simp
    have hdrop : dropLast4 (String.mk l) = String.mk t := by
      rw [dropLast4, hlen]
      show String.mk (l.take t.length) = String.mk t
      rw [← ht]
      rw [List.take_left t ['<', 'b', 'r', '>']]
    rw [hdrop] at h
    have ht0 : t = [] := congrArg String.data h
    rw [ht0] at ht
    show String.mk l = "<br>"
    rw [← ht]
    rfl
  · rw [if_neg hs] at h
    left
    exact h

theorem pyTruthy_str_ne (s : String) (h : s ≠ "") : pyTruthy (.str s) = true := by
  obtain ⟨l⟩ := s
  cases l with
  | nil => exact absurd rfl h
  | cons a b => rfl

/-! ### The claims -/

/-- C1: the spec's error policy says every missing field other than the
header's level and the list's style degrades to an empty string or an
omitted sub-element without failing; the code violates it.  A quote block
with no caption key, an embed block with no caption key, and a media block
with no file.mimetype each raise AttributeError (Python's None has no
endswith / startswith), here at sanitize = false. -/
theorem c1_missing_fields_raise :
    QuoteBlock.html [("text", .str "Hi"), ("alignment", .str "left")] false =
      .error .attributeError ∧
    EmbedBlock.html [("service", .str "youtube"), ("embed", .str "E")] false =
      .error .attributeError ∧
    MediaBlock.html [("file", .obj [("urls", .obj [("full", .str "f")])]),
      ("caption", .str "c")] false = .error .attributeError :=
  ⟨rfl, rfl, rfl⟩

/-- C2 counterexample: a header block whose level is the boolean true has a
level that is not an integer, so by the claim rendering should raise the
parse error; instead the code accepts it (Python booleans are instances of
int and True equals 1) and renders the literal interpolation hTrue. -/
theorem c2_bool_level_counterexample :
    HeaderBlock.html [("level", .bool true), ("text", .str "T")] false =
      .ok "<hTrue class=\"cdx-block ce-header\">T</hTrue>" := rfl

/-- C4: a code block renders identically under both values of the sanitize
flag (the flag is ignored and the code text emitted verbatim), and on the
specific input containing a script tag both calls return exactly the
fragment stated by the spec. -/
theorem c4_code_sanitize_invariant :
    (∀ (data : PyDict) (b₁ b₂ : Bool), CodeBlock.html data b₁ = CodeBlock.html data b₂) ∧
    CodeBlock.html [("code", .str "<script>1</script>")] true =
      .ok "<div class=\"cdx-block ce-code\"><pre><script>1</script></pre></div>" ∧
    CodeBlock.html [("code", .str "<script>1</script>")] false =
      .ok "<div class=\"cdx-block ce-code\"><pre><script>1</script></pre></div>" :=
  ⟨fun _ _ _ => rfl, rfl, rfl⟩

/-- C8: the rich sanitizer is idempotent: sanitizing an already sanitized
string changes nothing, for every input string. -/
theorem c8_sanitize_idempotent (x : String) :
    sanitizeRich (sanitizeRich x) = sanitizeRich x :=
  congrArg String.mk (sanCore_idem richTags richAttrs (by decide) (by decide) x.data)

/-- C9: a telegram-post block renders the widget script tag whose post
address is exactly channelName/messageId; the output does not depend on the
block's caption nor on the sanitize flag (the right-hand side mentions
neither). -/
theorem c9_telegram_post (ch mid : String) (cap : Option JVal) (b : Bool) :
    TelegramPost.html
      ([("channelName", .str ch), ("messageId", .str mid)] ++
        (match cap with
         | some c => [("caption", c)]
         | none => [])) b =
      .ok ("<div class=\"cdx-block telegram-post\"><script async src=\"https://telegram.org/js/telegram-widget.js?22\" data-telegram-post=\"" ++
        ch ++ "/" ++ mid ++ "\" data-width=\"100%\"></script></div>") := rfl

/-- C10: when the tunes mapping binds AlignmentTune to a mapping that lacks
the alignment key, paragraph rendering raises KeyError; the documented left
default applies only when the AlignmentTune entry is entirely absent. -/
theorem c10_paragraph_alignment_keyerror :
    (∀ (kvs : List (String × JVal)) (txt : String) (b : Bool),
      dlookup kvs "alignment" = none →
      ParagraphBlock.html [("text", .str txt)] [("AlignmentTune", .obj kvs)] b =
        .error .keyError) ∧
    (∀ txt : String,
      ParagraphBlock.html [("text", .str txt)] [] false =
        .ok ("<p style=\"text-align: " ++ "left" ++
          "\" class=\"cdx-block ce-paragraph\">" ++ txt ++ "</p>")) := by
  constructor
  · intro kvs txt b h
    have h2 : pySub (JVal.obj kvs) "alignment" = .error .keyError := by
      simp only [pySub, h]
    simp [ParagraphBlock.html, dget, dlookup, h2, Except.instMonad, Except.bind]
  · intro txt
    rfl

/-- C10 witness: an AlignmentTune bound to the empty mapping raises
KeyError, while absent tunes render with the left default. -/
theorem c10_paragraph_alignment_keyerror_witness :
    ParagraphBlock.html [("text", .str "T")] [("AlignmentTune", .obj [])] true =
      .error .keyError ∧
    ParagraphBlock.html [("text", .str "T")] [] false =
      .ok "<p style=\"text-align: left\" class=\"cdx-block ce-paragraph\">T</p>" :=
  ⟨c10_paragraph_alignment_keyerror.1 [] "T" true rfl,
    (c10_paragraph_alignment_keyerror.2 "T").trans rfl⟩

/-- C3: a list block whose style is the string ordered renders an ol
element with exactly one li per item in input order (and likewise ul for
unordered), each item sanitized exactly when the flag is set; any other
style value, including an absent style, raises the parse error. -/
theorem c3_list_styles :
    (∀ (items : List String) (b : Bool),
      ListBlock.html [("style", .str "ordered"), ("items", .list (items.map JVal.str))] b =
        .ok ("<" ++ "ol" ++ " class=\"cdx-block cdx-list cdx-list--" ++ "ordered" ++
          "\">" ++
          String.join (items.map
            (fun it => "<li>" ++ (if b then sanitizeRich it else it) ++ "</li>")) ++
          "</" ++ "ol" ++ ">")) ∧
    (∀ (items : List String) (b : Bool),
      ListBlock.html [("style", .str "unordered"), ("items", .list (items.map JVal.str))] b =
        .ok ("<" ++ "ul" ++ " class=\"cdx-block cdx-list cdx-list--" ++ "unordered" ++
          "\">" ++
          String.join (items.map
            (fun it => "<li>" ++ (if b then sanitizeRich it else it) ++ "</li>")) ++
          "</" ++ "ul" ++ ">")) ∧
    (∀ (st itemsv : JVal),
      st ≠ .str "ordered" → st ≠ .str "unordered" →
      ListBlock.html [("style", st), ("items", itemsv)] false =
        .error (.parseError ("`" ++ pyStr st ++ "` is not a valid list style."))) ∧
    ListBlock.html [("items", .list [])] false =
      .error (.parseError "`None` is not a valid list style.") := by
  have hr : ∀ (b : Bool) (items : List String),
      ListBlock.renderItems b (items.map JVal.str) =
        .ok (items.map
          (fun it => "<li>" ++ (if b then sanitizeRich it else it) ++ "</li>")) := by
    intro b items
    induction items with
    | nil => rfl
    | cons x r ih =>
      have hsv : sanVal b (.str x) = .ok (.str (if b then sanitizeRich x else x)) := by
        cases b <;> rfl
      simp only [List.map_cons, ListBlock.renderItems, hsv, ih, Except.instMonad,
        Except.bind, pyStr]
  refine ⟨?_, ?_, ?_, ?_⟩
  · intro items b
    simp [ListBlock.html, dget, dlookup, jIsStr, pyIter, hr b items, pyStr,
      Except.instMonad, Except.bind]
  · intro items b
    simp [ListBlock.html, dget, dlookup, jIsStr, pyIter, hr b items, pyStr,
      Except.instMonad, Except.bind]
  · intro st itemsv h1 h2
    have hu : jIsStr st "unordered" = false := by
      cases st with
      | str t =>
        simp only [jIsStr, decide_eq_false_iff_not]
        intro heq
        exact h2 (by rw [heq])
      | null => rfl
      | bool b => rfl
      | int n => rfl
      | list xs => rfl
      | obj kvs => rfl
    have ho : jIsStr st "ordered" = false := by
      cases st with
      | str t =>
        simp only [jIsStr, decide_eq_false_iff_not]
        intro heq
        exact h1 (by rw [heq])
      | null => rfl
      | bool b => rfl
      | int n => rfl
      | list xs => rfl
      | obj kvs => rfl
    simp [ListBlock.html, dget, dlookup, hu, ho]
  · rfl

/-- C3 witness: a two-item ordered list renders two li elements in order,
and the invalid style grid raises the parse error. -/
theorem c3_list_styles_witness :
    ListBlock.html [("style", .str "ordered"), ("items", .list [.str "a", .str "b"])] false =
      .ok "<ol class=\"cdx-block cdx-list cdx-list--ordered\"><li>a</li><li>b</li></ol>" ∧
    ListBlock.html [("style", .str "grid"), ("items", .list [])] false =
      .error (.parseError "`grid` is not a valid list style.") :=
  ⟨(c3_list_styles.1 ["a", "b"] false).trans rfl,
    (c3_list_styles.2.2.1 (.str "grid") (.list [])
      (by intro hh; simpa using hh) (by intro hh; simpa using hh)).trans rfl⟩

set_option maxRecDepth 8000 in
/-- C5: the concrete quote block with text Hi-br, caption cap-br and left
alignment renders the citation containing cap (trailing break placeholder
stripped) while the blockquote keeps Hi-br unstripped; and whenever the
caption is empty after trimming, the citation element is omitted entirely
from the output. -/
theorem c5_quote_caption_trim :
    QuoteBlock.html [("text", .str "Hi<br>"), ("caption", .str "cap<br>"),
      ("alignment", .str "left")] false =
      .ok "<div class=\"cdx-block ce-quote ce-quote-with-align-left ce-quote-with-caption\">      <blockquote class=\"ce-quote__blockquote\">Hi<br><cite class=\"ce-quote__caption\">cap</cite>      </blockquote></div>" ∧
    (∀ (txt al cap : String), trimBr cap = "" →
      QuoteBlock.html [("text", .str txt), ("caption", .str cap),
        ("alignment", .str al)] false =
        .ok ("<div class=\"cdx-block ce-quote ce-quote-with-align-" ++ al ++
          (if cap = "" then "" else " ce-quote-with-caption") ++ "\">" ++
          "      <blockquote class=\"ce-quote__blockquote\">" ++ txt ++ "" ++
          "      </blockquote>" ++ "</div>")) := by
  constructor
  · rfl
  · intro txt al cap h
    rcases trimBr_eq_empty cap h with hc | hc <;> subst hc <;> rfl

set_option maxRecDepth 8000 in
/-- C5 witness: a caption consisting only of the break placeholder is empty
after trimming, and the rendered quote has no cite element. -/
theorem c5_quote_caption_trim_witness :
    QuoteBlock.html [("text", .str "Hi"), ("caption", .str "<br>"),
      ("alignment", .str "left")] false =
      .ok "<div class=\"cdx-block ce-quote ce-quote-with-align-left ce-quote-with-caption\">      <blockquote class=\"ce-quote__blockquote\">Hi      </blockquote></div>" :=
  (c5_quote_caption_trim.2 "Hi" "left" "<br>" rfl).trans rfl

set_option maxRecDepth 8000 in
/-- C6: a media block whose mimetype starts with image and is not an svg
type, with the four urls, renders an img whose srcset lists the normal,
medium and small urls at 1080w, 720w and 480w; an svg image mimetype
renders the img from the full url only, with no srcset attribute in the
output. -/
theorem c6_media_srcset :
    (∀ mt : String, "image".data.isPrefixOf mt.data = true →
      strContains mt "image/svg" = false →
      MediaBlock.html [("file", .obj [("mimetype", .str mt),
        ("urls", .obj [("full", .str "f"), ("normal", .str "n"),
          ("medium", .str "m"), ("small", .str "s")])]),
        ("caption", .str "cap")] false =
        .ok "<div class=\"cdx-block media-tool media-tool--filled\"><figure>  <div class=\"media-tool__media\">     <img class=\"media-tool__media-picture\" src=\"f\" srcset=\"n 1080w, m 720w, s 480w\" alt=\"cap\" />  </div><figcaption class=\"media-tool__caption\" data-placeholder=\"cap\">cap</figcaption></figure></div>") ∧
    (∀ mt : String, "image".data.isPrefixOf mt.data = true →
      strContains mt "image/svg" = true →
      MediaBlock.html [("file", .obj [("mimetype", .str mt),
        ("urls", .obj [("full", .str "f"), ("normal", .str "n"),
          ("medium", .str "m"), ("small", .str "s")])]),
        ("caption", .str "cap")] false =
        .ok "<div class=\"cdx-block media-tool media-tool--filled\"><figure>  <div class=\"media-tool__media\">     <img class=\"media-tool__media-picture\" src=\"f\" alt=\"cap\" />  </div><figcaption class=\"media-tool__caption\" data-placeholder=\"cap\">cap</figcaption></figure></div>") ∧
    strContains "<div class=\"cdx-block media-tool media-tool--filled\"><figure>  <div class=\"media-tool__media\">     <img class=\"media-tool__media-picture\" src=\"f\" srcset=\"n 1080w, m 720w, s 480w\" alt=\"cap\" />  </div><figcaption class=\"media-tool__caption\" data-placeholder=\"cap\">cap</figcaption></figure></div>"
      "srcset=\"n 1080w, m 720w, s 480w\"" = true ∧
    strContains "<div class=\"cdx-block media-tool media-tool--filled\"><figure>  <div class=\"media-tool__media\">     <img class=\"media-tool__media-picture\" src=\"f\" alt=\"cap\" />  </div><figcaption class=\"media-tool__caption\" data-placeholder=\"cap\">cap</figcaption></figure></div>"
      "srcset" = false := by
  refine ⟨?_, ?_, by rfl, by rfl⟩
  · intro mt h1 h2
    simp [MediaBlock.html, dget, dlookup, sanVal, pyEndsWith, pyGet, pyStartsWith,
      h1, h2, jSlice, pyStr, pyTruthy, cleanVal, Except.instMonad, Except.bind,
      Except.pure,
      (show ¬ (['<', 'b', 'r', '>'] <:+ ['c', 'a', 'p']) by decide),
      (show sanitizePlain "cap" = "cap" from rfl)]
  · intro mt h1 h2
    simp [MediaBlock.html, dget, dlookup, sanVal, pyEndsWith, pyGet, pyStartsWith,
      h1, h2, jSlice, pyStr, pyTruthy, cleanVal, Except.instMonad, Except.bind,
      Except.pure,
      (show ¬ (['<', 'b', 'r', '>'] <:+ ['c', 'a', 'p']) by decide),
      (show sanitizePlain "cap" = "cap" from rfl)]

/-- C6 witness: the image png mimetype takes the srcset branch and the
image svg xml mimetype takes the srcset-free branch. -/
theorem c6_media_srcset_witness :
    MediaBlock.html [("file", .obj [("mimetype", .str "image/png"),
      ("urls", .obj [("full", .str "f"), ("normal", .str "n"),
        ("medium", .str "m"), ("small", .str "s")])]),
      ("caption", .str "cap")] false =
      .ok "<div class=\"cdx-block media-tool media-tool--filled\"><figure>  <div class=\"media-tool__media\">     <img class=\"media-tool__media-picture\" src=\"f\" srcset=\"n 1080w, m 720w, s 480w\" alt=\"cap\" />  </div><figcaption class=\"media-tool__caption\" data-placeholder=\"cap\">cap</figcaption></figure></div>" ∧
    MediaBlock.html [("file", .obj [("mimetype", .str "image/svg+xml"),
      ("urls", .obj [("full", .str "f"), ("normal", .str "n"),
        ("medium", .str "m"), ("small", .str "s")])]),
      ("caption", .str "cap")] false =
      .ok "<div class=\"cdx-block media-tool media-tool--filled\"><figure>  <div class=\"media-tool__media\">     <img class=\"media-tool__media-picture\" src=\"f\" alt=\"cap\" />  </div><figcaption class=\"media-tool__caption\" data-placeholder=\"cap\">cap</figcaption></figure></div>" :=
  ⟨c6_media_srcset.1 "image/png" rfl rfl,
    c6_media_srcset.2.1 "image/svg+xml" rfl rfl⟩

set_option maxRecDepth 8000 in
/-- C7: an embed block with service youtube renders exactly one iframe
element sourced from the embed field; an embed block with an unrecognized
service such as vimeo renders no iframe, blockquote, img, video or script
element, but still renders the figure with its figcaption caption. -/
theorem c7_embed_services :
    (∀ (emb cap : String),
      EmbedBlock.html [("service", .str "youtube"), ("embed", .str emb),
        ("caption", .str cap)] false =
        .ok ("<div class=\"cdx-block embed-tool embed-tool-" ++ "youtube" ++
          "\"><figure><div class=\"embed-tool__embed\">" ++
          ("<iframe src=\"" ++ emb ++
            "\" width=\"100%\" style=\"aspect-ratio: 16/9\" frameborder=\"0\" allow=\"accelerometer; autoplay; clipboard-write; encrypted-media; gyroscope; picture-in-picture; web-share\" allowfullscreen></iframe>") ++
          "</div><figcaption class=\"embed-tool__caption\">" ++ trimBr cap ++
          "</figcaption></figure></div>")) ∧
    strOcc "<div class=\"cdx-block embed-tool embed-tool-youtube\"><figure><div class=\"embed-tool__embed\"><iframe src=\"E\" width=\"100%\" style=\"aspect-ratio: 16/9\" frameborder=\"0\" allow=\"accelerometer; autoplay; clipboard-write; encrypted-media; gyroscope; picture-in-picture; web-share\" allowfullscreen></iframe></div><figcaption class=\"embed-tool__caption\">cap</figcaption></figure></div>"
      "<iframe" = 1 ∧
    (∀ (svc cap : String), svc ≠ "youtube" → svc ≠ "twitter" →
      EmbedBlock.html [("service", .str svc), ("caption", .str cap)] false =
        .ok ("<div class=\"cdx-block embed-tool embed-tool-" ++ svc ++
          "\"><figure><div class=\"embed-tool__embed\">" ++ "" ++
          "</div><figcaption class=\"embed-tool__caption\">" ++ trimBr cap ++
          "</figcaption></figure></div>")) ∧
    strOcc "<div class=\"cdx-block embed-tool embed-tool-vimeo\"><figure><div class=\"embed-tool__embed\"></div><figcaption class=\"embed-tool__caption\">cap</figcaption></figure></div>"
      "<iframe" = 0 ∧
    strOcc "<div class=\"cdx-block embed-tool embed-tool-vimeo\"><figure><div class=\"embed-tool__embed\"></div><figcaption class=\"embed-tool__caption\">cap</figcaption></figure></div>"
      "<blockquote" = 0 ∧
    strOcc "<div class=\"cdx-block embed-tool embed-tool-vimeo\"><figure><div class=\"embed-tool__embed\"></div><figcaption class=\"embed-tool__caption\">cap</figcaption></figure></div>"
      "<img" = 0 ∧
    strOcc "<div class=\"cdx-block embed-tool embed-tool-vimeo\"><figure><div class=\"embed-tool__embed\"></div><figcaption class=\"embed-tool__caption\">cap</figcaption></figure></div>"
      "<video" = 0 ∧
    strOcc "<div class=\"cdx-block embed-tool embed-tool-vimeo\"><figure><div class=\"embed-tool__embed\"></div><figcaption class=\"embed-tool__caption\">cap</figcaption></figure></div>"
      "<script" = 0 ∧
    strOcc "<div class=\"cdx-block embed-tool embed-tool-vimeo\"><figure><div class=\"embed-tool__embed\"></div><figcaption class=\"embed-tool__caption\">cap</figcaption></figure></div>"
      "<figcaption" = 1 := by
  refine ⟨?_, by rfl, ?_, by rfl, by rfl, by rfl, by rfl, by rfl, by rfl⟩
  · intro emb cap
    by_cases h : "<br>".data.isSuffixOf cap.data
    · simp [EmbedBlock.html, dget, dlookup, sanVal, pyEndsWith, h, jSlice, pyStr,
        trimBr, jIsStr, Except.instMonad, Except.bind]
    · simp [EmbedBlock.html, dget, dlookup, sanVal, pyEndsWith, h, jSlice, pyStr,
        trimBr, jIsStr, Except.instMonad, Except.bind]
  · intro svc cap h1 h2
    by_cases h : "<br>".data.isSuffixOf cap.data
    · simp [EmbedBlock.html, dget, dlookup, sanVal, pyEndsWith, h, h1, h2, jSlice,
        pyStr, trimBr, jIsStr, Except.instMonad, Except.bind]
    · simp [EmbedBlock.html, dget, dlookup, sanVal, pyEndsWith, h, h1, h2, jSlice,
        pyStr, trimBr, jIsStr, Except.instMonad, Except.bind]

set_option maxRecDepth 8000 in
/-- C7 witness: the youtube embed with embed url E and caption cap renders
the single-iframe document counted above, and the vimeo embed renders the
media-free figure counted above. -/
theorem c7_embed_services_witness :
    EmbedBlock.html [("service", .str "youtube"), ("embed", .str "E"),
      ("caption", .str "cap")] false =
      .ok "<div class=\"cdx-block embed-tool embed-tool-youtube\"><figure><div class=\"embed-tool__embed\"><iframe src=\"E\" width=\"100%\" style=\"aspect-ratio: 16/9\" frameborder=\"0\" allow=\"accelerometer; autoplay; clipboard-write; encrypted-media; gyroscope; picture-in-picture; web-share\" allowfullscreen></iframe></div><figcaption class=\"embed-tool__caption\">cap</figcaption></figure></div>" ∧
    EmbedBlock.html [("service", .str "vimeo"), ("caption", .str "cap")] false =
      .ok "<div class=\"cdx-block embed-tool embed-tool-vimeo\"><figure><div class=\"embed-tool__embed\"></div><figcaption class=\"embed-tool__caption\">cap</figcaption></figure></div>" :=
  ⟨(c7_embed_services.1 "E" "cap").trans rfl,
    (c7_embed_services.2.2.1 "vimeo" "cap" (by decide) (by decide)).trans rfl⟩

set_option maxRecDepth 8000 in
/-- C2 amended: a header level that is an integer in one to six (or absent,
defaulting to one) renders with matching h tags; a level that is a string,
None, a list, a mapping, an out-of-range integer, or the boolean false
raises the parse error; but a level of boolean true, which is not an
integer in the block's JSON data, is accepted (Python treats booleans as
integers and true equals one) and renders as the literal hTrue tag pair
without raising. -/
theorem c2_header_level_amended :
    (∀ (n : Int) (txt : String), 1 ≤ n → n ≤ 6 →
      HeaderBlock.html [("level", .int n), ("text", .str txt)] false =
        .ok ("<h" ++ toString n ++ " class=\"cdx-block ce-header\">" ++ txt ++
          "</h" ++ toString n ++ ">")) ∧
    (∀ txt : String,
      HeaderBlock.html [("text", .str txt)] false =
        .ok ("<h" ++ "1" ++ " class=\"cdx-block ce-header\">" ++ txt ++
          "</h" ++ "1" ++ ">")) ∧
    (∀ (n : Int) (txt : String), n < 1 ∨ 6 < n →
      HeaderBlock.html [("level", .int n), ("text", .str txt)] false =
        .error (.parseError ("`" ++ toString n ++ "` is not a valid header level."))) ∧
    (∀ (s txt : String),
      HeaderBlock.html [("level", .str s), ("text", .str txt)] false =
        .error (.parseError ("`" ++ s ++ "` is not a valid header level."))) ∧
    (∀ txt : String,
      HeaderBlock.html [("level", .null), ("text", .str txt)] false =
        .error (.parseError "`None` is not a valid header level.")) ∧
    (∀ txt : String,
      HeaderBlock.html [("level", .bool false), ("text", .str txt)] false =
        .error (.parseError "`False` is not a valid header level.")) ∧
    (∀ (xs : List JVal) (txt : String),
      HeaderBlock.html [("level", .list xs), ("text", .str txt)] false =
        .error (.parseError ("`" ++ pyStr (.list xs) ++ "` is not a valid header level."))) ∧
    (∀ (kvs : List (String × JVal)) (txt : String),
      HeaderBlock.html [("level", .obj kvs), ("text", .str txt)] false =
        .error (.parseError ("`" ++ pyStr (.obj kvs) ++ "` is not a valid header level."))) ∧
    (∀ txt : String,
      HeaderBlock.html [("level", .bool true), ("text", .str txt)] false =
        .ok ("<h" ++ "True" ++ " class=\"cdx-block ce-header\">" ++ txt ++
          "</h" ++ "True" ++ ">")) := by
  refine ⟨?_, fun txt => rfl, ?_, fun s txt => rfl, fun txt => rfl, fun txt => rfl,
    fun xs txt => rfl, fun kvs txt => rfl, fun txt => rfl⟩
  · intro n txt h1 h2
    have hb : pyLevelOk (.int n) = true := by
      simp only [pyLevelOk, Bool.and_eq_true, decide_eq_true_eq]
      exact ⟨h1, h2⟩
    simp only [HeaderBlock.html, HeaderBlock.level]
    rw [show dget [("level", JVal.int n), ("text", JVal.str txt)] "level" (.int 1) =
      JVal.int n from rfl, hb]
    rfl
  · intro n txt h
    have hb : pyLevelOk (.int n) = false := by
      simp only [pyLevelOk]
      rcases h with h | h
      · have hd : decide (1 ≤ n) = false := decide_eq_false (by omega)
        simp [hd]
      · have hd : decide (n ≤ 6) = false := decide_eq_false (by omega)
        simp [hd]
    simp only [HeaderBlock.html, HeaderBlock.level]
    rw [show dget [("level", JVal.int n), ("text", JVal.str txt)] "level" (.int 1) =
      JVal.int n from rfl, hb]
    rfl

/-- C2 witness: level three renders the h3 tag pair and level seven raises
the parse error. -/
theorem c2_header_level_amended_witness :
    HeaderBlock.html [("level", .int 3), ("text", .str "T")] false =
      .ok "<h3 class=\"cdx-block ce-header\">T</h3>" ∧
    HeaderBlock.html [("level", .int 7), ("text", .str "T")] false =
      .error (.parseError "`7` is not a valid header level.") :=
  ⟨(c2_header_level_amended.1 3 "T" (by decide) (by decide)).trans rfl,
    (c2_header_level_amended.2.2.1 7 "T" (Or.inr (by decide))).trans rfl⟩
